import Mathlib

/-!
Verification development for the Tempo → Unit4 worklog synchronizer.

The Python sources are shallowly embedded: regular-expression searches
become explicit character-list scanners with Python `re.search`
(leftmost-match) semantics, the interactive mapping prompt becomes a pure
function over an association list plus an explicit answer stream, and the
browser-driven sync pipeline becomes a pure state transformer over an
abstract grid-row state together with an action trace.
-/

set_option maxRecDepth 100000

namespace J2U4

/- ## Character and scanner primitives

Embeddings of the compiled regexes in `patterns.py` and of the inline
regexes in `sync_tempo_to_unit4.py`.  Python `re.search` returns the
leftmost match; each scanner below tries to match at the head of the
character list and otherwise advances one character. -/

def isDigitChar (c : Char) : Bool := '0' ≤ c && c ≤ '9'

def isUpperChar (c : Char) : Bool := 'A' ≤ c && c ≤ 'Z'

def digitVal (c : Char) : Nat := c.toNat - 48

/-- `int()` on a digit string, and the semantics of a `(\d+)` capture group. -/
def digitsToNat (l : List Char) : Nat := l.foldl (fun a c => 10 * a + digitVal c) 0

/-- Split a character list into its maximal leading digit run and the rest
(the greedy `\d+` / `\d*` step). -/
def spanDigits : List Char → List Char × List Char
  | [] => ([], [])
  | c :: cs =>
    if isDigitChar c then
      let p := spanDigits cs
      (c :: p.1, p.2)
    else ([], c :: cs)

/-- Split off the maximal leading run of uppercase ASCII letters
(the `[A-Z]` repetition step). -/
def spanUpper : List Char → List Char × List Char
  | [] => ([], [])
  | c :: cs =>
    if isUpperChar c then
      let p := spanUpper cs
      (c :: p.1, p.2)
    else ([], c :: cs)

/-- Match `(\d+)\]` against `rest`: greedy `\d+` followed by the literal
`]` succeeds exactly on the maximal digit run followed by `]`. -/
def markerTail (rest : List Char) : Option Nat :=
  if (spanDigits rest).1 ≠ [] ∧ (spanDigits rest).2.head? = some ']' then
    some (digitsToNat (spanDigits rest).1)
  else none

/-- Attempt to match `\[WL:(\d+)\]` at the head of the list, returning the
captured id. -/
def matchMarkerAt (l : List Char) : Option Nat :=
  if l.take 4 = ['[', 'W', 'L', ':'] then markerTail (l.drop 4) else none

def findMarkerL : List Char → Option Nat
  | [] => none
  | c :: cs =>
    match matchMarkerAt (c :: cs) with
    | some n => some n
    | none => findMarkerL cs

/-- `Patterns.WORKLOG_MARKER.search(s)` / `re.search(r"\[WL:(\d+)\]", s)`:
the id of the leftmost `[WL:<digits>]` token of `s`, if any. -/
def WORKLOG_MARKER_search (s : String) : Option Nat := findMarkerL s.data

/-- Attempt to match `([A-Z]{3,10}-\d+)` at the head of the list.  At a fixed
position the bounded repetition can only consume the entire maximal
uppercase run (any shorter attempt leaves an uppercase letter where `-` is
required), so the match succeeds exactly when that run has length 3–10 and
is followed by `-` and at least one digit. -/
def matchTicketAt (l : List Char) : Option (List Char) :=
  let p := spanUpper l
  if 3 ≤ p.1.length && p.1.length ≤ 10 then
    match p.2 with
    | '-' :: r2 =>
      match spanDigits r2 with
      | ([], _) => none
      | (d :: ds, _) => some (p.1 ++ '-' :: d :: ds)
    | _ => none
  else none

def findTicketL : List Char → Option (List Char)
  | [] => none
  | c :: cs =>
    match matchTicketAt (c :: cs) with
    | some t => some t
    | none => findTicketL cs

/-- `Patterns.TICKET_KEY.search(s)` / `re.search(r"([A-Z]{3,10}-\d+)", s)`. -/
def TICKET_KEY_search (s : String) : Option String :=
  (findTicketL s.data).map fun l => ⟨l⟩

/-- Take exactly `k` digits off the front of the list (the `\d{k}` step). -/
def takeCountDigits : Nat → List Char → Option (List Char × List Char)
  | 0, l => some ([], l)
  | _ + 1, [] => none
  | k + 1, c :: cs =>
    if isDigitChar c then
      (takeCountDigits k cs).map fun p => (c :: p.1, p.2)
    else none

/-- Attempt to match `(\d{4}-\d{5}-\d{3})` at the head of the list,
returning the matched text and the remainder. -/
def matchArbAt (l : List Char) : Option (List Char × List Char) :=
  match takeCountDigits 4 l with
  | none => none
  | some (d4, r1) =>
    match r1 with
    | '-' :: r2 =>
      match takeCountDigits 5 r2 with
      | none => none
      | some (d5, r3) =>
        match r3 with
        | '-' :: r4 =>
          match takeCountDigits 3 r4 with
          | none => none
          | some (d3, r5) => some (d4 ++ '-' :: d5 ++ '-' :: d3, r5)
        | _ => none
    | _ => none

def findArbauftL : List Char → Option (List Char)
  | [] => none
  | c :: cs =>
    match matchArbAt (c :: cs) with
    | some p => some p.1
    | none => findArbauftL cs

/-- `Patterns.ARBAUFT.search(s)` / `re.search(r"(\d{4}-\d{5}-\d{3})", s)`. -/
def ARBAUFT_search (s : String) : Option String :=
  (findArbauftL s.data).map fun l => ⟨l⟩

/-- `re.match(r"^\d{4}-\d{5}-\d{3}$", s)` in `ask_for_arbauft`: anchored
match at position 0, with `$` accepting the end of the string or a final
newline. -/
def ARBAUFT_fullmatch (s : String) : Bool :=
  match matchArbAt s.data with
  | some (_, rest) => rest = [] || rest = ['\n']
  | none => false

/-- Substring containment test, used for Python's `"[WL:" in text` and the
Playwright `[title*='[WL:']` attribute selector. -/
def isPrefixL : List Char → List Char → Bool
  | [], _ => true
  | _ :: _, [] => false
  | a :: as, b :: bs => a = b && isPrefixL as bs

def containsL (needle : List Char) : List Char → Bool
  | [] => isPrefixL needle []
  | c :: cs => isPrefixL needle (c :: cs) || containsL needle cs

def wlMarkerHead : List Char := ['[', 'W', 'L', ':']

def strContainsWL (s : String) : Bool := containsL wlMarkerHead s.data

/- ## Soundness of the marker scanner (claim C1)

`HasWLToken s n` states that `s` literally contains a bracketed token
`[WL:<digits>]` whose digits spell `n`. -/

def HasWLToken (s : String) (n : Nat) : Prop :=
  ∃ u ds v, s.data = u ++ '[' :: 'W' :: 'L' :: ':' :: (ds ++ ']' :: v) ∧
    ds ≠ [] ∧ (∀ c ∈ ds, isDigitChar c = true) ∧ digitsToNat ds = n

theorem spanDigits_spec (l : List Char) :
    l = (spanDigits l).1 ++ (spanDigits l).2 ∧ ∀ c ∈ (spanDigits l).1, isDigitChar c = true := by
  induction l with
  | nil => simp [spanDigits]
  | cons c cs ih =>
    by_cases h : isDigitChar c
    · simp only [spanDigits, h, if_pos]
      refine ⟨by simpa using ih.1, ?_⟩
      intro x hx
      rcases List.mem_cons.mp hx with rfl | hx
      · exact h
      · exact ih.2 x hx
    · simp [spanDigits, h]

theorem markerTail_sound {rest : List Char} {n : Nat} (h : markerTail rest = some n) :
    ∃ ds v, rest = ds ++ ']' :: v ∧
      ds ≠ [] ∧ (∀ c ∈ ds, isDigitChar c = true) ∧ digitsToNat ds = n := by
  unfold markerTail at h
  split at h
  · next hc =>
    obtain ⟨hne, hhead⟩ := hc
    obtain ⟨v, hv⟩ : ∃ v, (spanDigits rest).2 = ']' :: v := by
      cases hr : (spanDigits rest).2 with
      | nil => rw [hr] at hhead; simp at hhead
      | cons x xs =>
        rw [hr] at hhead
        simp only [List.head?_cons, Option.some.injEq] at hhead
        exact ⟨xs, by rw [hhead]⟩
    have hs := spanDigits_spec rest
    refine ⟨(spanDigits rest).1, v, ?_, hne, hs.2, by simpa using h⟩
    rw [← hv]
    exact hs.1
  · exact absurd h (by simp)

theorem matchMarkerAt_sound {l : List Char} {n : Nat} (h : matchMarkerAt l = some n) :
    ∃ ds v, l = '[' :: 'W' :: 'L' :: ':' :: (ds ++ ']' :: v) ∧
      ds ≠ [] ∧ (∀ c ∈ ds, isDigitChar c = true) ∧ digitsToNat ds = n := by
  unfold matchMarkerAt at h
  split at h
  · next htake =>
    obtain ⟨ds, v, hrest, hne, hdig, hval⟩ := markerTail_sound h
    refine ⟨ds, v, ?_, hne, hdig, hval⟩
    have := List.take_append_drop 4 l
    rw [htake, hrest] at this
    simpa using this.symm
  · exact absurd h (by simp)

theorem findMarkerL_sound {l : List Char} {n : Nat} (h : findMarkerL l = some n) :
    ∃ u ds v, l = u ++ '[' :: 'W' :: 'L' :: ':' :: (ds ++ ']' :: v) ∧
      ds ≠ [] ∧ (∀ c ∈ ds, isDigitChar c = true) ∧ digitsToNat ds = n := by
  induction l with
  | nil => simp [findMarkerL] at h
  | cons c cs ih =>
    simp only [findMarkerL] at h
    rcases hm : matchMarkerAt (c :: cs) with _ | m
    · rw [hm] at h
      obtain ⟨u, ds, v, hl, hne, hdig, hval⟩ := ih h
      exact ⟨c :: u, ds, v, by rw [List.cons_append, hl], hne, hdig, hval⟩
    · rw [hm] at h
      obtain rfl : m = n := by simpa using h
      obtain ⟨ds, v, hl, hne, hdig, hval⟩ := matchMarkerAt_sound hm
      exact ⟨[], ds, v, by simpa using hl, hne, hdig, hval⟩

/-- C1 (amended): the marker pattern is `[WL:<n>]`, not `[ID:<n>]`.  The
compiled pattern `Patterns.WORKLOG_MARKER` extracts `1764` from
`"[WL:1764] working on concept"` and `99999` from `"[WL:99999]"`, and any
successful search certifies that the input really contains a bracketed
`[WL:<digits>]` token spelling the returned id — so a string containing no
such token yields no match. -/
theorem worklog_marker_extracts_wl_ids :
    WORKLOG_MARKER_search "[WL:1764] working on concept" = some 1764 ∧
    WORKLOG_MARKER_search "[WL:99999]" = some 99999 ∧
    ∀ s n, WORKLOG_MARKER_search s = some n → HasWLToken s n := by
  refine ⟨by decide, by decide, ?_⟩
  intro s n h
  exact findMarkerL_sound h

/-- C1 witness: instantiating the soundness direction at a concrete input. -/
theorem worklog_marker_extracts_wl_ids_witness :
    HasWLToken "x [WL:7] y" 7 :=
  worklog_marker_extracts_wl_ids.2.2 "x [WL:7] y" 7 (by decide)

/-- C1 counterexample: the claim's concrete `[ID:...]` examples do not
match the code's marker pattern, which only recognizes `[WL:...]`. -/
theorem worklog_marker_id_token_counterexample :
    WORKLOG_MARKER_search "[ID:1764] working on concept" = none ∧
    WORKLOG_MARKER_search "[ID:99999]" = none := by
  decide

/- ## Data model (`models.py` / the dataclasses in `sync_tempo_to_unit4.py`) -/

/-- `TempoWorklog`: a worklog entry from Tempo.  `hours` is modelled as an
exact rational (Python uses a float; the division `timeSpentSeconds/3600`
is exact in every case relevant to the claims below).  A `None`
`account_key`/`account_name` is modelled as `""`, matching how
`process_worklogs` constructs these fields. -/
structure TempoWorklog where
  worklog_id : Nat
  issue_id : Nat
  issue_key : String
  issue_summary : String
  date : String
  hours : ℚ
  description : String
  account_key : String
  account_name : String
  arbauft : Option String
deriving DecidableEq

/-- `Unit4Entry`: an entry scraped from Unit4. -/
structure Unit4Entry where
  ticketno : String
  arbauft : String
  text : String
  worklog_id : Option Nat
deriving DecidableEq

/- ## Mapping store and the interactive prompt (`ask_for_arbauft`)

The persisted JSON mapping file is modelled as an association list with
Python-dict update semantics; `save_mapping` (a plain file write of the
current dict) is modelled by the `savedToDisk` flag carrying the updated
map in the result. -/

structure MappingEntry where
  unit4_arbauft : String
  tempo_name : String
  sample_ticket : String
deriving DecidableEq

def mapInsert : List (String × MappingEntry) → String → MappingEntry →
    List (String × MappingEntry)
  | [], k, v => [(k, v)]
  | (k', v') :: rest, k, v =>
    if k' = k then (k, v) :: rest else (k', v') :: mapInsert rest k v

def mapLookup : List (String × MappingEntry) → String → Option MappingEntry
  | [], _ => none
  | (k', v') :: rest, k => if k' = k then some v' else mapLookup rest k

/-- Python `str.strip()` on the whitespace actually arising from console
input (ASCII whitespace). -/
def isPySpace (c : Char) : Bool :=
  c = ' ' || c = '\t' || c = '\n' || c = '\r' || c = '\x0b' || c = '\x0c'

def pyStrip (s : String) : String :=
  ⟨((s.data.dropWhile isPySpace).reverse.dropWhile isPySpace).reverse⟩

/-- Python `str.upper()` restricted to ASCII (sufficient for the `"SKIP"`
comparison). -/
def pyUpper (s : String) : String :=
  ⟨s.data.map fun c => if 'a' ≤ c && c ≤ 'z' then Char.ofNat (c.toNat - 32) else c⟩

structure AskResult where
  result : Option String
  mapping : List (String × MappingEntry)
  savedToDisk : Bool
deriving DecidableEq

/-- `ask_for_arbauft(worklog, mapping)` with the single console answer made
explicit.  The code strips the answer, returns `None` on `SKIP` (any case)
or an empty answer, returns `None` with an error message on a format
mismatch, and otherwise upserts the mapping, calls `save_mapping`, and
returns the (stripped) ArbAuft. -/
def ask_for_arbauft (wl : TempoWorklog) (mapping : List (String × MappingEntry))
    (answer : String) : AskResult :=
  if pyUpper (pyStrip answer) = "SKIP" ∨ pyStrip answer = "" then
    ⟨none, mapping, false⟩
  else if ARBAUFT_fullmatch (pyStrip answer) = false then
    ⟨none, mapping, false⟩
  else
    ⟨some (pyStrip answer),
     mapInsert mapping wl.account_key
       ⟨pyStrip answer,
        if wl.account_name = "" then "?" else wl.account_name,
        wl.issue_key⟩,
     true⟩

/-- `ask_for_arbauft` issues exactly one `input()` call: it consumes one
answer from the console stream and never reads a second one. -/
def ask_for_arbauft_console (wl : TempoWorklog) (mapping : List (String × MappingEntry))
    (answers : List String) : AskResult × List String :=
  match answers with
  | [] => (⟨none, mapping, false⟩, [])
  | a :: rest => (ask_for_arbauft wl mapping a, rest)

theorem mapLookup_mapInsert (m : List (String × MappingEntry)) (k : String)
    (v : MappingEntry) : mapLookup (mapInsert m k v) k = some v := by
  induction m with
  | nil => simp [mapInsert, mapLookup]
  | cons p rest ih =>
    by_cases h : p.1 = k
    · simp [mapInsert, mapLookup, h]
    · simp [mapInsert, mapLookup, h, ih]

theorem ask_for_arbauft_contract (wl : TempoWorklog)
    (mapping : List (String × MappingEntry)) (answer : String) :
    ((ask_for_arbauft wl mapping answer).result = none ↔
      (pyUpper (pyStrip answer) = "SKIP" ∨ pyStrip answer = "" ∨
        ARBAUFT_fullmatch (pyStrip answer) = false))
    ∧ ((ask_for_arbauft wl mapping answer).result = none →
        (ask_for_arbauft wl mapping answer).mapping = mapping ∧
        (ask_for_arbauft wl mapping answer).savedToDisk = false)
    ∧ (∀ s, (ask_for_arbauft wl mapping answer).result = some s →
        ARBAUFT_fullmatch s = true ∧
        (ask_for_arbauft wl mapping answer).savedToDisk = true ∧
        ∃ e, mapLookup (ask_for_arbauft wl mapping answer).mapping wl.account_key = some e ∧
          e.unit4_arbauft = s) := by
  by_cases h1 : pyUpper (pyStrip answer) = "SKIP" ∨ pyStrip answer = ""
  · have hr : ask_for_arbauft wl mapping answer = ⟨none, mapping, false⟩ := by
      simp [ask_for_arbauft, h1]
    refine ⟨?_, fun _ => by rw [hr]; exact ⟨rfl, rfl⟩, fun s hs => ?_⟩
    · rw [hr]
      simpa using Or.imp id Or.inl h1
    · rw [hr] at hs
      simp at hs
  · by_cases h2 : ARBAUFT_fullmatch (pyStrip answer) = false
    · have hr : ask_for_arbauft wl mapping answer = ⟨none, mapping, false⟩ := by
        simp [ask_for_arbauft, h1, h2]
      refine ⟨?_, fun _ => by rw [hr]; exact ⟨rfl, rfl⟩, fun s hs => ?_⟩
      · rw [hr]
        simp [h2]
      · rw [hr] at hs
        simp at hs
    · have hb : ARBAUFT_fullmatch (pyStrip answer) = true := by
        cases hv : ARBAUFT_fullmatch (pyStrip answer) with
        | true => rfl
        | false => exact absurd hv h2
      have hr : ask_for_arbauft wl mapping answer =
          ⟨some (pyStrip answer),
           mapInsert mapping wl.account_key
             ⟨pyStrip answer,
              if wl.account_name = "" then "?" else wl.account_name,
              wl.issue_key⟩,
           true⟩ := by
        simp [ask_for_arbauft, h1, h2]
      refine ⟨?_, ?_, ?_⟩
      · rw [hr]
        constructor
        · intro hx
          exact absurd hx (by simp)
        · intro hx
          rcases hx with hx | hx | hx
          · exact absurd (Or.inl hx) h1
          · exact absurd (Or.inr hx) h1
          · exact absurd hx h2
      · intro hnone
        rw [hr] at hnone
        simp at hnone
      · intro s hs
        rw [hr] at hs
        simp only [Option.some.injEq] at hs
        subst hs
        exact ⟨hb, by rw [hr],
          ⟨_, by rw [hr]; exact mapLookup_mapInsert mapping wl.account_key _, rfl⟩⟩

/-- C10: `ask_for_arbauft` returns `None` exactly on `SKIP` (any case), an
empty answer, or a format mismatch, and in that case leaves the mapping
store untouched and unsaved; a non-`None` return is a string matching the
cost-code pattern that has already been persisted under the worklog's
account key. -/
theorem ask_for_arbauft_persistence (wl : TempoWorklog)
    (mapping : List (String × MappingEntry)) (answer : String) :
    ((ask_for_arbauft wl mapping answer).result = none ↔
      (pyUpper (pyStrip answer) = "SKIP" ∨ pyStrip answer = "" ∨
        ARBAUFT_fullmatch (pyStrip answer) = false))
    ∧ ((ask_for_arbauft wl mapping answer).result = none →
        (ask_for_arbauft wl mapping answer).mapping = mapping ∧
        (ask_for_arbauft wl mapping answer).savedToDisk = false)
    ∧ (∀ s, (ask_for_arbauft wl mapping answer).result = some s →
        ARBAUFT_fullmatch s = true ∧
        (ask_for_arbauft wl mapping answer).savedToDisk = true ∧
        ∃ e, mapLookup (ask_for_arbauft wl mapping answer).mapping wl.account_key = some e ∧
          e.unit4_arbauft = s) :=
  ask_for_arbauft_contract wl mapping answer

/-- C10 witness: a concrete valid answer is persisted under the worklog's
account key. -/
theorem ask_for_arbauft_persistence_witness :
    ARBAUFT_fullmatch "1234-56789-001" = true ∧
    (ask_for_arbauft ⟨1, 1, "PROJ-9", "s", "2026-01-28", 1, "", "ACC-7", "Acme", none⟩ []
      " 1234-56789-001 ").savedToDisk = true ∧
    ∃ e, mapLookup
        ((ask_for_arbauft ⟨1, 1, "PROJ-9", "s", "2026-01-28", 1, "", "ACC-7", "Acme", none⟩ []
          " 1234-56789-001 ").mapping) "ACC-7" = some e ∧
      e.unit4_arbauft = "1234-56789-001" := by
  have h := (ask_for_arbauft_persistence
    ⟨1, 1, "PROJ-9", "s", "2026-01-28", 1, "", "ACC-7", "Acme", none⟩ []
    " 1234-56789-001 ").2.2 "1234-56789-001" (by decide)
  exact h

/-- C9 counterexample: with an ill-formatted first answer and a valid
second answer queued on the console, `ask_for_arbauft` returns `None`
after consuming only the first answer — the rejection happens without any
re-prompt (a re-prompting implementation would have consumed and returned
the queued valid answer). -/
theorem ask_for_arbauft_no_reprompt_counterexample :
    (ask_for_arbauft_console
      ⟨1, 1, "PROJ-9", "s", "2026-01-28", 1, "", "ACC-7", "Acme", none⟩ []
      ["1234-5678-001", "1234-56789-001"]).1.result = none ∧
    (ask_for_arbauft_console
      ⟨1, 1, "PROJ-9", "s", "2026-01-28", 1, "", "ACC-7", "Acme", none⟩ []
      ["1234-5678-001", "1234-56789-001"]).2 = ["1234-56789-001"] := by
  decide

/-- C9 (amended): an operator-entered cost-code that does not match the
expected pattern is rejected — `ask_for_arbauft` returns `None`, leaves
the mapping store unmodified and unsaved, and the worklog is skipped — but
there is no re-prompt: exactly one console answer is consumed. -/
theorem ask_for_arbauft_rejects_invalid (wl : TempoWorklog)
    (mapping : List (String × MappingEntry)) (a : String) (rest : List String)
    (h : ARBAUFT_fullmatch (pyStrip a) = false) :
    (ask_for_arbauft_console wl mapping (a :: rest)).1.result = none ∧
    (ask_for_arbauft_console wl mapping (a :: rest)).1.mapping = mapping ∧
    (ask_for_arbauft_console wl mapping (a :: rest)).1.savedToDisk = false ∧
    (ask_for_arbauft_console wl mapping (a :: rest)).2 = rest := by
  have hc := ask_for_arbauft_contract wl mapping a
  have hnone : (ask_for_arbauft wl mapping a).result = none :=
    hc.1.mpr (Or.inr (Or.inr h))
  have hrest := hc.2.1 hnone
  exact ⟨hnone, hrest.1, hrest.2, rfl⟩

/-- C9 witness: the amended statement at a concrete ill-formatted answer. -/
theorem ask_for_arbauft_rejects_invalid_witness :
    (ask_for_arbauft_console
      ⟨1, 1, "PROJ-9", "s", "2026-01-28", 1, "", "ACC-7", "Acme", none⟩ []
      ["9999-1234-001"]).1.result = none ∧
    (ask_for_arbauft_console
      ⟨1, 1, "PROJ-9", "s", "2026-01-28", 1, "", "ACC-7", "Acme", none⟩ []
      ["9999-1234-001"]).1.mapping = [] ∧
    (ask_for_arbauft_console
      ⟨1, 1, "PROJ-9", "s", "2026-01-28", 1, "", "ACC-7", "Acme", none⟩ []
      ["9999-1234-001"]).1.savedToDisk = false ∧
    (ask_for_arbauft_console
      ⟨1, 1, "PROJ-9", "s", "2026-01-28", 1, "", "ACC-7", "Acme", none⟩ []
      ["9999-1234-001"]).2 = [] :=
  ask_for_arbauft_rejects_invalid
    ⟨1, 1, "PROJ-9", "s", "2026-01-28", 1, "", "ACC-7", "Acme", none⟩ []
    "9999-1234-001" [] (by decide)

/- ## Worklog hours (`process_worklogs`, claim C8)

`process_worklogs` computes `hours = wl["timeSpentSeconds"] / 3600` — a
plain true division with no rounding.  The division is modelled exactly
over the rationals; the concrete counterexample below is insensitive to
the float/rational distinction (the float `1000/3600` is likewise not a
two-decimal value). -/

/-- `hours = wl["timeSpentSeconds"] / 3600` from `process_worklogs`. -/
def worklogHours (timeSpentSeconds : Nat) : ℚ := (timeSpentSeconds : ℚ) / 3600

/-- Modelled from the spec: "fixed 2-decimal rounding" of a rational value
(rounding half away from the floor; the tie-breaking convention is
irrelevant to the claims below, which are about non-tie values). -/
def round2 (q : ℚ) : ℚ := (round (q * 100) : ℤ) / 100

/-- Modelled from the spec: hours derived from seconds with fixed
2-decimal rounding. -/
def specRoundedHours (timeSpentSeconds : Nat) : ℚ :=
  round2 ((timeSpentSeconds : ℚ) / 3600)

/-- C8 counterexample: at `timeSpentSeconds = 1000` the code stores
`1000/3600 = 5/18 = 0.2777…`, while 2-decimal rounding would give
`0.28` — the code applies no rounding. -/
theorem worklog_hours_not_rounded_counterexample :
    worklogHours 1000 ≠ specRoundedHours 1000 := by
  have h1 : worklogHours 1000 = 5 / 18 := by
    norm_num [worklogHours]
  have h2 : specRoundedHours 1000 = 7 / 25 := by
    rw [specRoundedHours, round2]
    push_cast
    rw [show ((1000 : ℚ) / 3600) * 100 = 250 / 9 by norm_num]
    norm_num [round_eq]
  rw [h1, h2]
  norm_num

/-- C8 (amended): the stored hours are exactly `timeSpentSeconds / 3600`
with no rounding applied; the stored value coincides with its own
2-decimal rounding precisely when `timeSpentSeconds` is a multiple of 36
(i.e. when the exact quotient already has at most two decimals). -/
theorem worklog_hours_exact_division (s : Nat) :
    worklogHours s = specRoundedHours s ↔ s % 36 = 0 := by
  constructor
  · intro h
    rw [worklogHours, specRoundedHours, round2] at h
    set z : ℤ := round (((s : ℚ) / 3600) * 100) with hz
    have h100 : (s : ℚ) * 100 = (z : ℚ) * 3600 := by
      field_simp at h
      linarith
    have hint : (s : ℤ) * 100 = z * 3600 := by
      exact_mod_cast h100
    omega
  · intro h
    obtain ⟨k, hk⟩ : ∃ k, s = 36 * k := ⟨s / 36, by omega⟩
    subst hk
    have harg : (((36 * k : Nat) : ℚ) / 3600) * 100 = (((k : ℤ) : ℚ)) := by
      push_cast
      field_simp
      ring
    rw [worklogHours, specRoundedHours, round2, harg, round_intCast]
    push_cast
    field_simp
    ring

/- ## Week utilities (`get_week_dates`, claim C7)

`get_week_dates` relies on Python `datetime`; the proleptic-Gregorian
ordinal arithmetic of CPython's `datetime` module (`toordinal`,
`weekday`, `strftime("%Y-%m-%d")`) is embedded below.  Ordinal 1 is
0001-01-01, a Monday, and `weekday` numbers Monday as 0. -/

def isLeap (y : Nat) : Bool := (y % 4 == 0 && y % 100 != 0) || y % 400 == 0

/-- Days in a month (CPython `datetime._days_in_month`). -/
def daysInMonth (y m : Nat) : Nat :=
  if m = 2 then (if isLeap y then 29 else 28)
  else if m = 4 ∨ m = 6 ∨ m = 9 ∨ m = 11 then 30
  else 31

/-- Days before January 1 of year `y` (CPython `datetime._days_before_year`). -/
def daysBeforeYear (y : Nat) : Nat :=
  365 * (y - 1) + (y - 1) / 4 - (y - 1) / 100 + (y - 1) / 400

/-- Cumulative days before month `m` in a non-leap year
(CPython `datetime._DAYS_BEFORE_MONTH`). -/
def daysBeforeMonthTable : Nat → Nat
  | 1 => 0 | 2 => 31 | 3 => 59 | 4 => 90 | 5 => 120 | 6 => 151
  | 7 => 181 | 8 => 212 | 9 => 243 | 10 => 273 | 11 => 304 | 12 => 334
  | _ => 0

def daysBeforeMonth (y m : Nat) : Nat :=
  daysBeforeMonthTable m + (if 2 < m ∧ isLeap y = true then 1 else 0)

/-- `date(y, m, d).toordinal()`. -/
def toOrdinal (y m d : Nat) : Nat := daysBeforeYear y + daysBeforeMonth y m + d

/-- `date.weekday()` of an ordinal: Monday = 0 … Sunday = 6. -/
def pyWeekday (rd : Nat) : Nat := (rd + 6) % 7

/-- Year and 1-based day-of-year of an ordinal (fuel-driven year walk). -/
def fromOrdinalYear : Nat → Nat → Nat → Nat × Nat
  | 0, y, d => (y, d)
  | fuel + 1, y, d =>
    if d ≤ (if isLeap y then 366 else 365) then (y, d)
    else fromOrdinalYear fuel (y + 1) (d - (if isLeap y then 366 else 365))

/-- Month and day from a 1-based day-of-year. -/
def fromOrdinalMonth : Nat → Nat → Nat → Nat → Nat × Nat
  | 0, _, m, d => (m, d)
  | fuel + 1, y, m, d =>
    if d ≤ daysInMonth y m then (m, d)
    else fromOrdinalMonth fuel y (m + 1) (d - daysInMonth y m)

/-- `date.fromordinal(rd)` as `(year, month, day)`. -/
def fromOrdinal (rd : Nat) : Nat × Nat × Nat :=
  ((fromOrdinalYear rd 1 rd).1,
   (fromOrdinalMonth 12 (fromOrdinalYear rd 1 rd).1 1 (fromOrdinalYear rd 1 rd).2).1,
   (fromOrdinalMonth 12 (fromOrdinalYear rd 1 rd).1 1 (fromOrdinalYear rd 1 rd).2).2)

def natDigitChar (n : Nat) : Char := Char.ofNat (48 + n % 10)

def natToDigitsAux : Nat → Nat → List Char → List Char
  | 0, n, acc => natDigitChar n :: acc
  | fuel + 1, n, acc =>
    if n < 10 then natDigitChar n :: acc
    else natToDigitsAux fuel (n / 10) (natDigitChar n :: acc)

def natToDigits (n : Nat) : List Char := natToDigitsAux n n []

def natToString (n : Nat) : String := ⟨natToDigits n⟩

def pad2 (n : Nat) : String :=
  if n < 10 then ⟨'0' :: natToDigits n⟩ else ⟨natToDigits n⟩

def pad4 (n : Nat) : String :=
  if n < 10 then ⟨'0' :: '0' :: '0' :: natToDigits n⟩
  else if n < 100 then ⟨'0' :: '0' :: natToDigits n⟩
  else if n < 1000 then ⟨'0' :: natToDigits n⟩
  else ⟨natToDigits n⟩

/-- `strftime("%Y-%m-%d")` of an ordinal. -/
def formatOrdinal (rd : Nat) : String :=
  pad4 (fromOrdinal rd).1 ++ "-" ++ pad2 (fromOrdinal rd).2.1 ++ "-" ++
    pad2 (fromOrdinal rd).2.2

/-- Ordinal-level core of `get_week_dates`: `jan4 = datetime(year, 1, 4)`,
`start_of_week1 = jan4 - timedelta(days=jan4.weekday())`,
`week_start = start_of_week1 + timedelta(weeks=week - 1)`,
`week_end = week_start + timedelta(days=6)`. -/
def get_week_dates_ord (year week : Nat) : Nat × Nat :=
  (toOrdinal year 1 4 - pyWeekday (toOrdinal year 1 4) + 7 * (week - 1),
   toOrdinal year 1 4 - pyWeekday (toOrdinal year 1 4) + 7 * (week - 1) + 6)

/-- `int()` on `week_str[:4]` / `week_str[4:]`. -/
def parseNatDigits (s : String) : Nat :=
  s.data.foldl (fun a c => 10 * a + digitVal c) 0

/-- `get_week_dates(week_str)` from `utils.py` (identical copy in
`sync_tempo_to_unit4.py`). -/
def get_week_dates (week_str : String) : String × String :=
  (formatOrdinal (get_week_dates_ord (parseNatDigits (week_str.take 4))
      (parseNatDigits (week_str.drop 4))).1,
   formatOrdinal (get_week_dates_ord (parseNatDigits (week_str.take 4))
      (parseNatDigits (week_str.drop 4))).2)

/-- C7: for every valid period `YYYYWW` (year ≥ 1, week ≥ 1) the computed
span starts on a Monday, ends on the following Sunday 6 days later,
consecutive weeks advance by exactly 7 days, week 1 is the ISO week 1 of
the year (it contains January 4, and its Thursday falls inside year `y`),
and the year-boundary case is exercised concretely: ISO week 1 of 2026
runs from Monday 2025-12-29 to Sunday 2026-01-04. -/
theorem get_week_dates_iso_weeks (y w : Nat) (hy : 1 ≤ y) (hw : 1 ≤ w) :
    pyWeekday (get_week_dates_ord y w).1 = 0 ∧
    pyWeekday (get_week_dates_ord y w).2 = 6 ∧
    (get_week_dates_ord y w).2 = (get_week_dates_ord y w).1 + 6 ∧
    (get_week_dates_ord y (w + 1)).1 = (get_week_dates_ord y w).1 + 7 ∧
    (w = 1 → (get_week_dates_ord y w).1 ≤ toOrdinal y 1 4 ∧
      toOrdinal y 1 4 ≤ (get_week_dates_ord y w).2 ∧
      toOrdinal y 1 1 ≤ (get_week_dates_ord y w).1 + 3 ∧
      (get_week_dates_ord y w).1 + 3 ≤ toOrdinal y 12 31) ∧
    get_week_dates "202601" = ("2025-12-29", "2026-01-04") := by
  have h1 : daysBeforeMonth y 1 = 0 := by
    unfold daysBeforeMonth
    rw [if_neg (fun h => absurd h.1 (by omega))]
    decide
  have h12 : 334 ≤ daysBeforeMonth y 12 ∧ daysBeforeMonth y 12 ≤ 335 := by
    unfold daysBeforeMonth
    have ht : daysBeforeMonthTable 12 = 334 := by decide
    rw [ht]
    split <;> omega
  have hconc : get_week_dates "202601" = ("2025-12-29", "2026-01-04") := by decide
  refine ⟨?_, ?_, ?_, ?_, ?_, hconc⟩
  · unfold get_week_dates_ord toOrdinal pyWeekday
    rw [h1]
    omega
  · unfold get_week_dates_ord toOrdinal pyWeekday
    rw [h1]
    omega
  · unfold get_week_dates_ord
    omega
  · unfold get_week_dates_ord
    omega
  · rintro rfl
    unfold get_week_dates_ord toOrdinal pyWeekday
    rw [h1]
    omega

/-- C7 witness: the theorem instantiated at the year-boundary week
`202601`. -/
theorem get_week_dates_iso_weeks_witness :
    pyWeekday (get_week_dates_ord 2026 1).1 = 0 ∧
    pyWeekday (get_week_dates_ord 2026 1).2 = 6 ∧
    (get_week_dates_ord 2026 1).2 = (get_week_dates_ord 2026 1).1 + 6 ∧
    (get_week_dates_ord 2026 2).1 = (get_week_dates_ord 2026 1).1 + 7 ∧
    ((1 : Nat) = 1 → (get_week_dates_ord 2026 1).1 ≤ toOrdinal 2026 1 4 ∧
      toOrdinal 2026 1 4 ≤ (get_week_dates_ord 2026 1).2 ∧
      toOrdinal 2026 1 1 ≤ (get_week_dates_ord 2026 1).1 + 3 ∧
      (get_week_dates_ord 2026 1).1 + 3 ≤ toOrdinal 2026 12 31) ∧
    get_week_dates "202601" = ("2025-12-29", "2026-01-04") :=
  get_week_dates_iso_weeks 2026 1 (by decide) (by decide)

/- ## Entry extraction

Two extractors exist in the repository.

`Unit4Browser.extract_entries` (`unit4_browser.py`) runs three passes over
every frame of the page — title attributes, input/textarea values, visible
text — threading one `seen_wl_ids` set through all passes and frames, and
materializes every fresh marker id via `_create_entry_from_text`, which
substitutes sentinel values when the ticket key or the cost-code cannot be
parsed.

`extract_unit4_entries` (`sync_tempo_to_unit4.py`) walks `<tr>` rows,
augments the row text with the first cell/child `title` attribute
containing `[WL:`, and appends an entry only when BOTH the ticket-key and
the cost-code patterns match — a marker row lacking either is dropped
(its id is still added to the seen set).

The page is abstracted structurally: an element carries its `title`
attribute, its input value (for `<input>`/`<textarea>`), its visible text,
and the inner text of its nearest `<tr>` ancestor. -/

/-- `Unit4Browser._create_entry_from_text`. -/
def createEntryFromText (text : String) (worklogId : Nat) : Unit4Entry :=
  { ticketno := (TICKET_KEY_search text).getD "UNKNOWN"
    arbauft := (ARBAUFT_search text).getD "0000-00000-000"
    text := text.take 100
    worklog_id := some worklogId }

structure PageElem where
  title : Option String
  inputValue : Option String
  visibleText : String
  rowText : Option String
deriving DecidableEq

structure FrameModel where
  elems : List PageElem
deriving DecidableEq

/-- `row_text = base + " " + row.inner_text()` when an ancestor row exists. -/
def withRow (base : String) (row : Option String) : String :=
  match row with
  | some r => base ++ " " ++ r
  | none => base

/-- Pass 1 (`_extract_from_title_attribute`): elements selected by
`[title*='[WL:']`; the marker is searched in the title alone, the entry
fields in title + row text. -/
def titleItems (f : FrameModel) : List (String × String) :=
  f.elems.filterMap fun e =>
    match e.title with
    | some t => if strContainsWL t then some (t, withRow t e.rowText) else none
    | none => none

/-- Pass 2 (`_extract_from_inputs`): input/textarea values containing
`"[WL:"`; both the marker search and the entry fields use value + row
text. -/
def inputItems (f : FrameModel) : List (String × String) :=
  f.elems.filterMap fun e =>
    match e.inputValue with
    | some v =>
      if strContainsWL v then some (withRow v e.rowText, withRow v e.rowText) else none
    | none => none

/-- Pass 3 (`_extract_from_visible_text`): elements whose visible text
matches `/\[WL:\d+\]/`; marker and fields from text + row text. -/
def textItems (f : FrameModel) : List (String × String) :=
  f.elems.filterMap fun e =>
    if (findMarkerL e.visibleText.data).isSome then
      some (withRow e.visibleText e.rowText, withRow e.visibleText e.rowText)
    else none

def frameItems (f : FrameModel) : List (String × String) :=
  titleItems f ++ inputItems f ++ textItems f

/-- All scan items of `Unit4Browser.extract_entries`, in pass order per
frame, over all frames of the page. -/
def scanItems (page : List FrameModel) : List (String × String) :=
  page.foldr (fun f acc => frameItems f ++ acc) []

/-- The shared `seen_wl_ids` loop of `_parse_element_to_entry` /
`_parse_text_to_entry`: each item contributes its first marker id once. -/
def extractLoop : List (String × String) → List Nat → List Unit4Entry
  | [], _ => []
  | it :: rest, seen =>
    match WORKLOG_MARKER_search it.1 with
    | none => extractLoop rest seen
    | some n =>
      if n ∈ seen then extractLoop rest seen
      else createEntryFromText it.2 n :: extractLoop rest (n :: seen)

/-- `Unit4Browser.extract_entries`. -/
def extract_entries (page : List FrameModel) : List Unit4Entry :=
  extractLoop (scanItems page) []

/-- The marker ids appearing in the page's scan items (first marker per
scanned item). -/
def scannedIds (page : List FrameModel) : List Nat :=
  (scanItems page).filterMap fun it => WORKLOG_MARKER_search it.1

theorem extractLoop_mem (items : List (String × String)) :
    ∀ (seen : List Nat) (n : Nat),
      some n ∈ (extractLoop items seen).map Unit4Entry.worklog_id ↔
        (n ∈ items.filterMap (fun it => WORKLOG_MARKER_search it.1) ∧ n ∉ seen) := by
  induction items with
  | nil =>
    intro seen n
    simp [extractLoop]
  | cons it rest ih =>
    intro seen n
    cases hm : WORKLOG_MARKER_search it.1 with
    | none =>
      rw [show extractLoop (it :: rest) seen = extractLoop rest seen by
        simp [extractLoop, hm]]
      rw [ih seen n]
      simp [hm]
    | some m =>
      by_cases hseen : m ∈ seen
      · rw [show extractLoop (it :: rest) seen = extractLoop rest seen by
          simp [extractLoop, hm, hseen]]
        rw [ih seen n]
        simp only [List.filterMap_cons, hm, List.mem_cons]
        constructor
        · rintro ⟨hn, hns⟩
          exact ⟨Or.inr hn, hns⟩
        · rintro ⟨hn | hn, hns⟩
          · exact absurd (hn ▸ hseen) hns
          · exact ⟨hn, hns⟩
      · rw [show extractLoop (it :: rest) seen =
            createEntryFromText it.2 m :: extractLoop rest (m :: seen) by
          simp [extractLoop, hm, hseen]]
        simp only [List.map_cons, List.mem_cons]
        rw [ih (m :: seen) n]
        simp only [List.filterMap_cons, hm, List.mem_cons]
        have hw : Unit4Entry.worklog_id (createEntryFromText it.2 m) = some m := rfl
        rw [hw]
        by_cases hnm : n = m
        · subst hnm
          simp [hseen]
        · constructor
          · rintro (hn | ⟨hn, hns⟩)
            · exact absurd (by simpa using hn) hnm
            · exact ⟨Or.inr hn, fun hc => hns (Or.inr hc)⟩
          · rintro ⟨hn | hn, hns⟩
            · exact absurd hn hnm
            · refine Or.inr ⟨hn, fun hc => ?_⟩
              rcases hc with hc | hc
              · exact hnm hc
              · exact hns hc

theorem extractLoop_nodup (items : List (String × String)) :
    ∀ seen : List Nat, ((extractLoop items seen).map Unit4Entry.worklog_id).Nodup := by
  induction items with
  | nil =>
    intro seen
    simp [extractLoop]
  | cons it rest ih =>
    intro seen
    cases hm : WORKLOG_MARKER_search it.1 with
    | none =>
      rw [show extractLoop (it :: rest) seen = extractLoop rest seen by
        simp [extractLoop, hm]]
      exact ih seen
    | some m =>
      by_cases hseen : m ∈ seen
      · rw [show extractLoop (it :: rest) seen = extractLoop rest seen by
          simp [extractLoop, hm, hseen]]
        exact ih seen
      · rw [show extractLoop (it :: rest) seen =
            createEntryFromText it.2 m :: extractLoop rest (m :: seen) by
          simp [extractLoop, hm, hseen]]
        simp only [List.map_cons]
        refine List.nodup_cons.mpr ⟨?_, ih (m :: seen)⟩
        intro hmem
        have hc := (extractLoop_mem rest (m :: seen) m).mp (by simpa using hmem)
        exact hc.2 (List.mem_cons_self m seen)

theorem countP_eq_one_of_nodup_of_mem {l : List (Option Nat)} (hnd : l.Nodup)
    {n : Nat} (hm : some n ∈ l) :
    l.countP (fun o => decide (o = some n)) = 1 := by
  induction l with
  | nil => simp at hm
  | cons x xs ih =>
    rcases List.mem_cons.mp hm with hx | hx
    · have hnot : some n ∉ xs := by
        intro hc
        exact (List.nodup_cons.mp hnd).1 (hx ▸ hc)
      rw [List.countP_cons]
      have hz : xs.countP (fun o => decide (o = some n)) = 0 := by
        rw [List.countP_eq_zero]
        intro a ha
        simp only [decide_eq_true_eq]
        intro hc
        exact hnot (hc ▸ ha)
      simp [hz, ← hx]
    · have hne : x ≠ some n := by
        intro hc
        exact (List.nodup_cons.mp hnd).1 (hc ▸ hx)
      rw [List.countP_cons]
      have := ih (List.nodup_cons.mp hnd).2 hx
      simp [this, hne]

/-- C6: extraction yields at most one entry per marker id — the entry ids
are pairwise distinct — and an id is produced exactly when some scanned
item (a tooltip/title attribute, an input value, or a visible text node,
in any frame and any pass) carries it as its first marker; such an id
yields exactly one entry. -/
theorem extract_entries_dedup (page : List FrameModel) :
    ((extract_entries page).map Unit4Entry.worklog_id).Nodup ∧
    (∀ n, some n ∈ (extract_entries page).map Unit4Entry.worklog_id ↔
      n ∈ scannedIds page) ∧
    (∀ n, n ∈ scannedIds page →
      ((extract_entries page).map Unit4Entry.worklog_id).countP
        (fun o => decide (o = some n)) = 1) := by
  have hnd := extractLoop_nodup (scanItems page) []
  have hmem : ∀ n, some n ∈ (extract_entries page).map Unit4Entry.worklog_id ↔
      n ∈ scannedIds page := by
    intro n
    rw [extract_entries, extractLoop_mem (scanItems page) [] n]
    simp [scannedIds]
  exact ⟨hnd, hmem, fun n hn =>
    countP_eq_one_of_nodup_of_mem hnd ((hmem n).mpr hn)⟩

/-- C6 witness: a page where id 42 appears both in a tooltip title and in
the visible text of the same row yields exactly one entry for 42. -/
theorem extract_entries_dedup_witness :
    ((extract_entries
        [⟨[⟨some "[WL:42] PROJ-1 1234-56789-001", none,
            "[WL:42] PROJ-1", some "PROJ-1 1234-56789-001 8,00"⟩]⟩]).map
      Unit4Entry.worklog_id).countP (fun o => decide (o = some 42)) = 1 := by
  refine (extract_entries_dedup
    [⟨[⟨some "[WL:42] PROJ-1 1234-56789-001", none,
        "[WL:42] PROJ-1", some "PROJ-1 1234-56789-001 8,00"⟩]⟩]).2.2 42 ?_
  decide

/- ### The standalone sync script's extractor (`extract_unit4_entries`) -/

/-- A `<tr>` row as scanned by `extract_unit4_entries`: its inner text and
the first cell/child `title` attribute containing `"[WL:"`, if any. -/
structure SyncRow where
  innerText : String
  titleAugment : Option String
deriving DecidableEq

/-- The `row_text` the script assembles for a row. -/
def syncRowText (r : SyncRow) : String := withRow r.innerText r.titleAugment

/-- The row loop of `extract_unit4_entries`: the marker id enters the seen
set unconditionally, but an entry is appended only when both the ticket
and the ArbAuft patterns match. -/
def extractUnit4Loop : List SyncRow → List Nat → List Unit4Entry
  | [], _ => []
  | r :: rest, seen =>
    match WORKLOG_MARKER_search (syncRowText r) with
    | none => extractUnit4Loop rest seen
    | some n =>
      if n ∈ seen then extractUnit4Loop rest seen
      else
        match TICKET_KEY_search (syncRowText r), ARBAUFT_search (syncRowText r) with
        | some tk, some ab =>
          ⟨tk, ab, (syncRowText r).take 100, some n⟩ :: extractUnit4Loop rest (n :: seen)
        | _, _ => extractUnit4Loop rest (n :: seen)

/-- `extract_unit4_entries` from `sync_tempo_to_unit4.py`. -/
def extract_unit4_entries (rows : List SyncRow) : List Unit4Entry :=
  extractUnit4Loop rows []

/-- C5: `Unit4Browser._create_entry_from_text` implements the claim — a
marker id is always materialized, with sentinel `"UNKNOWN"` /
`"0000-00000-000"` values when the ticket key or cost-code cannot be
parsed — but the standalone sync script's `extract_unit4_entries`
contradicts it: a marker row whose text yields no ticket key or no
cost-code is silently dropped (evaluated here at the failing input
`"[WL:7] some note"`). -/
theorem extraction_sentinels_vs_drop :
    (∀ text n,
      (createEntryFromText text n).worklog_id = some n ∧
      (TICKET_KEY_search text = none → (createEntryFromText text n).ticketno = "UNKNOWN") ∧
      (ARBAUFT_search text = none →
        (createEntryFromText text n).arbauft = "0000-00000-000")) ∧
    extract_unit4_entries [⟨"[WL:7] some note", none⟩] = [] := by
  refine ⟨fun text n => ⟨rfl, fun h => ?_, fun h => ?_⟩, by decide⟩
  · simp [createEntryFromText, h]
  · simp [createEntryFromText, h]

/-- C5 witness: sentinel substitution at a concrete malformed row text. -/
theorem extraction_sentinels_vs_drop_witness :
    (createEntryFromText "[WL:9] malformed row" 9).worklog_id = some 9 ∧
    (createEntryFromText "[WL:9] malformed row" 9).ticketno = "UNKNOWN" ∧
    (createEntryFromText "[WL:9] malformed row" 9).arbauft = "0000-00000-000" := by
  have h := extraction_sentinels_vs_drop.1 "[WL:9] malformed row" 9
  exact ⟨h.1, h.2.1 (by decide), h.2.2 (by decide)⟩

/- ## The reconciliation driver (`sync`), claims C2–C4

`sync()` drives a real browser; its Unit4 phase is embedded as a pure
state transformer.  A `<tr>` of the booking grid is abstracted as a
`GridRow` recording the first `[WL:n]` marker of its combined row text
and whether the ticket-key / cost-code patterns match that text; the
bridge lemma `extract_unit4_entries_bridge` shows the string-level
extractor `extract_unit4_entries` records exactly the ids computed by
`extractIds` on the abstracted rows.  UI interactions always succeed in
the model (bounded retries and manual fallbacks are not modelled as
failure sources); the locked-status flag is part of the run's input
precisely to make visible that `sync()` never reads it. -/

structure GridRow where
  markerId : Option Nat
  hasTicket : Bool
  hasArbauft : Bool
deriving DecidableEq

/-- Abstraction of a scanned row: first marker of the combined row text,
and whether each pattern matches it. -/
def toGridRow (r : SyncRow) : GridRow :=
  ⟨WORKLOG_MARKER_search (syncRowText r),
   (TICKET_KEY_search (syncRowText r)).isSome,
   (ARBAUFT_search (syncRowText r)).isSome⟩

/-- `extract_unit4_entries` at the row abstraction: the recorded worklog
ids.  The id enters the seen set unconditionally; it is recorded only
when both patterns matched. -/
def extractIdsLoop : List GridRow → List Nat → List Nat
  | [], _ => []
  | r :: rest, seen =>
    match r.markerId with
    | none => extractIdsLoop rest seen
    | some n =>
      if n ∈ seen then extractIdsLoop rest seen
      else if r.hasTicket && r.hasArbauft then n :: extractIdsLoop rest (n :: seen)
      else extractIdsLoop rest (n :: seen)

def extractIds (rows : List GridRow) : List Nat := extractIdsLoop rows []

theorem extractUnit4Loop_bridge (rows : List SyncRow) :
    ∀ seen, (extractUnit4Loop rows seen).map Unit4Entry.worklog_id =
      (extractIdsLoop (rows.map toGridRow) seen).map some := by
  induction rows with
  | nil =>
    intro seen
    simp [extractUnit4Loop, extractIdsLoop]
  | cons r rest ih =>
    intro seen
    cases hm : WORKLOG_MARKER_search (syncRowText r) with
    | none => simp [extractUnit4Loop, extractIdsLoop, toGridRow, hm, ih]
    | some n =>
      by_cases hseen : n ∈ seen
      · simp [extractUnit4Loop, extractIdsLoop, toGridRow, hm, hseen, ih]
      · cases ht : TICKET_KEY_search (syncRowText r) with
        | none => simp [extractUnit4Loop, extractIdsLoop, toGridRow, hm, hseen, ht, ih]
        | some tk =>
          cases ha : ARBAUFT_search (syncRowText r) with
          | none => simp [extractUnit4Loop, extractIdsLoop, toGridRow, hm, hseen, ht, ha, ih]
          | some ab => simp [extractUnit4Loop, extractIdsLoop, toGridRow, hm, hseen, ht, ha, ih]

/-- Coherence of the row abstraction: the string-level sync extractor and
the abstract `extractIds` record the same ids in the same order. -/
theorem extract_unit4_entries_bridge (rows : List SyncRow) :
    (extract_unit4_entries rows).map Unit4Entry.worklog_id =
      (extractIds (rows.map toGridRow)).map some :=
  extractUnit4Loop_bridge rows []

def markedIds (rows : List GridRow) : List Nat := rows.filterMap GridRow.markerId

def countRowsWithId : List GridRow → Nat → Nat
  | [], _ => 0
  | r :: rs, n => (if r.markerId = some n then 1 else 0) + countRowsWithId rs n

/-- Every marked row parses both the ticket key and the cost-code. -/
def WellScanned (rows : List GridRow) : Bool :=
  rows.all fun r => r.markerId.isNone || (r.hasTicket && r.hasArbauft)

/-- Locating the row to checkbox-mark for one extracted entry
(`tr:has-text('[WL:<id>]')` and the title-attribute fallbacks): the first
row carrying the marker. -/
def removeFirstRow : List GridRow → Nat → List GridRow
  | [], _ => []
  | r :: rs, n => if r.markerId = some n then rs else r :: removeFirstRow rs n

/-- Mark every extracted entry's row, then `Löschen` + `Ja` + `OK` +
`Speichern`: all marked rows disappear. -/
def markAndDelete : List GridRow → List Nat → List GridRow
  | rows, [] => rows
  | rows, n :: ns => markAndDelete (removeFirstRow rows n) ns

/-- The bounded re-scan loop (`for delete_pass in range(3)`): re-extract,
stop if clean, otherwise mark-and-delete again. -/
def deleteRescanLoop : Nat → List GridRow → List GridRow
  | 0, rows => rows
  | fuel + 1, rows =>
    if (extractIds rows).isEmpty then rows
    else deleteRescanLoop fuel (markAndDelete rows (extractIds rows))

/- ### Rows created by `add_unit4_entry`

A successful `add_unit4_entry(frame, page, worklog, dry_run)` writes the
Text cell `"[WL:<worklog_id>] " + description[:60]` (with the description
falling back to the issue summary), the Ticketno cell `worklog.issue_key`
and the ArbAuft cell `worklog.arbauft`.  The combined row text the
extractor later sees is modelled as those cell texts joined by blanks
(the full Text reaching the scan via the tooltip title).  Crucially,
`issue_key` is whatever `process_worklogs` produced — on a failed Jira
lookup it is the fallback `f"ID:{issue_id}"`, which the ticket-key
pattern does not match — so whether a created row re-parses is a
property of the worklog, not a constant. -/

/-- `description = worklog.description.strip() if worklog.description
else worklog.issue_summary` (from `add_unit4_entry`). -/
def entryDescription (wl : TempoWorklog) : String :=
  if wl.description = "" then wl.issue_summary else pyStrip wl.description

/-- The combined row text of a grid row freshly created for `wl`. -/
def createdRowText (wl : TempoWorklog) : String :=
  "[WL:" ++ (natToString wl.worklog_id ++ ("] " ++ ((entryDescription wl).take 60 ++
    (" " ++ (wl.issue_key ++ (" " ++ wl.arbauft.getD ""))))))

/-- The created grid row, abstracted exactly like every scanned row. -/
def createdRowOf (wl : TempoWorklog) : GridRow :=
  toGridRow ⟨createdRowText wl, none⟩

theorem syncRowText_none (s : String) : syncRowText ⟨s, none⟩ = s := rfl

theorem toGridRow_markerId (r : SyncRow) :
    (toGridRow r).markerId = WORKLOG_MARKER_search (syncRowText r) := rfl

theorem toGridRow_hasTicket (r : SyncRow) :
    (toGridRow r).hasTicket = (TICKET_KEY_search (syncRowText r)).isSome := rfl

theorem toGridRow_hasArbauft (r : SyncRow) :
    (toGridRow r).hasArbauft = (ARBAUFT_search (syncRowText r)).isSome := rfl

/- The marker of a created row is provably its worklog id: the row text
starts with `[WL:` followed by the decimal digits of the id and `]`, and
the scanner takes the leftmost marker. -/

theorem isDigitChar_natDigitChar (m : Nat) : isDigitChar (natDigitChar m) = true := by
  have h : ∀ k : Fin 10, isDigitChar (natDigitChar k.val) = true := by decide
  have hm : m % 10 < 10 := by omega
  have heq : natDigitChar m = natDigitChar (m % 10) := by
    unfold natDigitChar
    congr 1
    omega
  rw [heq]
  exact h ⟨m % 10, hm⟩

theorem digitVal_natDigitChar (m : Nat) : digitVal (natDigitChar m) = m % 10 := by
  have h : ∀ k : Fin 10, digitVal (natDigitChar k.val) = k.val := by decide
  have hm : m % 10 < 10 := by omega
  have heq : natDigitChar m = natDigitChar (m % 10) := by
    unfold natDigitChar
    congr 1
    omega
  rw [heq]
  exact h ⟨m % 10, hm⟩

theorem natToDigitsAux_append : ∀ (fuel n : Nat) (acc : List Char),
    natToDigitsAux fuel n acc = natToDigitsAux fuel n [] ++ acc := by
  intro fuel
  induction fuel with
  | zero =>
    intro n acc
    rfl
  | succ f ih =>
    intro n acc
    by_cases h : n < 10
    · simp [natToDigitsAux, h]
    · rw [show natToDigitsAux (f + 1) n acc =
          natToDigitsAux f (n / 10) (natDigitChar n :: acc) by simp [natToDigitsAux, h]]
      rw [show natToDigitsAux (f + 1) n [] =
          natToDigitsAux f (n / 10) [natDigitChar n] by simp [natToDigitsAux, h]]
      rw [ih (n / 10) (natDigitChar n :: acc), ih (n / 10) [natDigitChar n]]
      simp

theorem natToDigits_all_digits (n : Nat) : ∀ c ∈ natToDigits n, isDigitChar c = true := by
  have key : ∀ fuel m (acc : List Char), (∀ c ∈ acc, isDigitChar c = true) →
      ∀ c ∈ natToDigitsAux fuel m acc, isDigitChar c = true := by
    intro fuel
    induction fuel with
    | zero =>
      intro m acc hacc c hc
      rcases List.mem_cons.mp hc with rfl | hc
      · exact isDigitChar_natDigitChar m
      · exact hacc c hc
    | succ f ih =>
      intro m acc hacc c hc
      by_cases h : m < 10
      · rw [show natToDigitsAux (f + 1) m acc = natDigitChar m :: acc by
          simp [natToDigitsAux, h]] at hc
        rcases List.mem_cons.mp hc with rfl | hc
        · exact isDigitChar_natDigitChar m
        · exact hacc c hc
      · rw [show natToDigitsAux (f + 1) m acc =
            natToDigitsAux f (m / 10) (natDigitChar m :: acc) by
          simp [natToDigitsAux, h]] at hc
        refine ih (m / 10) (natDigitChar m :: acc) ?_ c hc
        intro x hx
        rcases List.mem_cons.mp hx with rfl | hx
        · exact isDigitChar_natDigitChar m
        · exact hacc x hx
  exact key n n [] (by simp)

theorem natToDigits_ne_nil (n : Nat) : natToDigits n ≠ [] := by
  have key : ∀ fuel m (acc : List Char), natToDigitsAux fuel m acc ≠ [] := by
    intro fuel
    induction fuel with
    | zero =>
      intro m acc
      simp [natToDigitsAux]
    | succ f ih =>
      intro m acc
      by_cases h : m < 10
      · simp [natToDigitsAux, h]
      · rw [show natToDigitsAux (f + 1) m acc =
            natToDigitsAux f (m / 10) (natDigitChar m :: acc) by simp [natToDigitsAux, h]]
        exact ih _ _
  exact key n n []

theorem digitsToNat_append_singleton (l : List Char) (c : Char) :
    digitsToNat (l ++ [c]) = 10 * digitsToNat l + digitVal c := by
  simp [digitsToNat, List.foldl_append]

theorem digitsToNat_natToDigitsAux : ∀ fuel n, n ≤ fuel ∨ n < 10 →
    digitsToNat (natToDigitsAux fuel n []) = n := by
  intro fuel
  induction fuel with
  | zero =>
    intro n hn
    have hn10 : n < 10 := by rcases hn with hn | hn <;> omega
    rw [show natToDigitsAux 0 n [] = [natDigitChar n] from rfl]
    rw [show digitsToNat [natDigitChar n] = digitVal (natDigitChar n) by
      simp [digitsToNat]]
    rw [digitVal_natDigitChar]
    omega
  | succ f ih =>
    intro n hn
    by_cases h : n < 10
    · rw [show natToDigitsAux (f + 1) n [] = [natDigitChar n] by simp [natToDigitsAux, h]]
      rw [show digitsToNat [natDigitChar n] = digitVal (natDigitChar n) by
        simp [digitsToNat]]
      rw [digitVal_natDigitChar]
      omega
    · rw [show natToDigitsAux (f + 1) n [] = natToDigitsAux f (n / 10) [natDigitChar n] by
        simp [natToDigitsAux, h]]
      rw [natToDigitsAux_append f (n / 10) [natDigitChar n]]
      rw [digitsToNat_append_singleton]
      rw [ih (n / 10) (by rcases hn with hn | hn <;> omega)]
      rw [digitVal_natDigitChar]
      omega

theorem digitsToNat_natToDigits (n : Nat) : digitsToNat (natToDigits n) = n :=
  digitsToNat_natToDigitsAux n n (Or.inl le_rfl)

theorem spanDigits_append_nondigit {ds : List Char}
    (hds : ∀ c ∈ ds, isDigitChar c = true) {c : Char} (hc : isDigitChar c = false)
    (rest : List Char) : spanDigits (ds ++ c :: rest) = (ds, c :: rest) := by
  induction ds with
  | nil => simp [spanDigits, hc]
  | cons d ds ih =>
    have hd : isDigitChar d = true := hds d (List.mem_cons_self d ds)
    have ih2 := ih fun x hx => hds x (List.mem_cons_of_mem _ hx)
    simp [spanDigits, hd, ih2]

theorem markerTail_of_digits {ds : List Char} (hne : ds ≠ [])
    (hds : ∀ c ∈ ds, isDigitChar c = true) (rest : List Char) :
    markerTail (ds ++ ']' :: rest) = some (digitsToNat ds) := by
  unfold markerTail
  rw [spanDigits_append_nondigit hds (by decide) rest]
  simp [hne]

theorem findMarkerL_head {ds : List Char} (hne : ds ≠ [])
    (hds : ∀ c ∈ ds, isDigitChar c = true) (rest : List Char) :
    findMarkerL ('[' :: 'W' :: 'L' :: ':' :: (ds ++ ']' :: rest)) =
      some (digitsToNat ds) := by
  have htake : List.take 4 ('[' :: 'W' :: 'L' :: ':' :: (ds ++ ']' :: rest)) =
      ['[', 'W', 'L', ':'] := rfl
  have hdrop : List.drop 4 ('[' :: 'W' :: 'L' :: ':' :: (ds ++ ']' :: rest)) =
      ds ++ ']' :: rest := rfl
  have hm : matchMarkerAt ('[' :: 'W' :: 'L' :: ':' :: (ds ++ ']' :: rest)) =
      some (digitsToNat ds) := by
    unfold matchMarkerAt
    rw [if_pos htake, hdrop, markerTail_of_digits hne hds rest]
  rw [show findMarkerL ('[' :: 'W' :: 'L' :: ':' :: (ds ++ ']' :: rest)) =
      (match matchMarkerAt ('[' :: 'W' :: 'L' :: ':' :: (ds ++ ']' :: rest)) with
       | some n => some n
       | none => findMarkerL ('W' :: 'L' :: ':' :: (ds ++ ']' :: rest))) from rfl]
  rw [hm]

theorem WORKLOG_MARKER_search_of_head {s : String} {id : Nat} {tail : List Char}
    (h : s.data = '[' :: 'W' :: 'L' :: ':' :: (natToDigits id ++ ']' :: tail)) :
    WORKLOG_MARKER_search s = some id := by
  rw [WORKLOG_MARKER_search, h,
    findMarkerL_head (natToDigits_ne_nil id) (natToDigits_all_digits id) tail,
    digitsToNat_natToDigits]

theorem createdRowText_data (wl : TempoWorklog) :
    (createdRowText wl).data =
      '[' :: 'W' :: 'L' :: ':' :: (natToDigits wl.worklog_id ++ ']' :: ' ' ::
        (((entryDescription wl).take 60).data ++ ' ' :: (wl.issue_key.data ++ ' ' ::
          (wl.arbauft.getD "").data))) := by
  have h1 : "[WL:".data = ['[', 'W', 'L', ':'] := rfl
  have h2 : "] ".data = [']', ' '] := rfl
  have h3 : " ".data = [' '] := rfl
  have h4 : (natToString wl.worklog_id).data = natToDigits wl.worklog_id := rfl
  rw [createdRowText]
  simp only [String.data_append, h1, h2, h3, h4, List.cons_append, List.nil_append,
    List.append_assoc]

theorem createdRowOf_markerId (wl : TempoWorklog) :
    (createdRowOf wl).markerId = some wl.worklog_id := by
  rw [createdRowOf, toGridRow_markerId, syncRowText_none]
  exact WORKLOG_MARKER_search_of_head (createdRowText_data wl)

theorem createdRowOf_hasTicket (wl : TempoWorklog) :
    (createdRowOf wl).hasTicket = (TICKET_KEY_search (createdRowText wl)).isSome := by
  rw [createdRowOf, toGridRow_hasTicket, syncRowText_none]

theorem createdRowOf_hasArbauft (wl : TempoWorklog) :
    (createdRowOf wl).hasArbauft = (ARBAUFT_search (createdRowText wl)).isSome := by
  rw [createdRowOf, toGridRow_hasArbauft, syncRowText_none]

inductive SyncAction where
  | fetchWorklogs
  | processWorklogs
  | printSummary
  | connectBrowser
  | setWeekInput
  | waitForReady
  | scanEntries
  | markRow (id : Nat)
  | clickDelete
  | saveAfterDelete
  | printDryRunPlan (deleteIds : List Nat) (createIds : List Nat)
  | createEntry (id : Nat)
  | saveAll
deriving DecidableEq

structure SyncResult where
  trace : List SyncAction
  rows : List GridRow
  created : Nat
  deleted : Nat
deriving DecidableEq

/-- The `sync(week, cutover, execute)` run after worklog processing:
steps [1]–[3] always run; with no valid worklogs the run stops before the
browser phase; otherwise it connects, sets the week, waits for the page
(`sync()` polls only for the Add button — it never reads any
locked-status label, so `lockedLabelVisible` influences nothing), scans
for marked entries, and then either prints the dry-run plan (mutating
nothing) or deletes all extracted entries (with up to 3 re-scan passes)
and recreates one entry per valid worklog — the created row's parsing
behaviour derives from the worklog's own fields via `createdRowOf`.
`deleted` counts the grid rows that actually disappeared; `created` the
entries added. -/
def syncRun (valid : List TempoWorklog) (rows₀ : List GridRow)
    (lockedLabelVisible : Bool) (execute : Bool) : SyncResult :=
  if valid.isEmpty then
    ⟨[.fetchWorklogs, .processWorklogs, .printSummary], rows₀, 0, 0⟩
  else if !execute then
    ⟨[.fetchWorklogs, .processWorklogs, .printSummary, .connectBrowser, .setWeekInput,
      .waitForReady, .scanEntries,
      .printDryRunPlan (extractIds rows₀) (valid.map TempoWorklog.worklog_id)],
     rows₀, 0, 0⟩
  else
    ⟨[.fetchWorklogs, .processWorklogs, .printSummary, .connectBrowser, .setWeekInput,
      .waitForReady, .scanEntries] ++
      (if (extractIds rows₀).isEmpty then []
       else (extractIds rows₀).map SyncAction.markRow ++
         [SyncAction.clickDelete, SyncAction.saveAfterDelete]) ++
      valid.map (fun wl => SyncAction.createEntry wl.worklog_id) ++ [SyncAction.saveAll],
     (if (extractIds rows₀).isEmpty then rows₀
      else deleteRescanLoop 3 (markAndDelete rows₀ (extractIds rows₀))) ++
       valid.map createdRowOf,
     valid.length,
     rows₀.length -
       (if (extractIds rows₀).isEmpty then rows₀
        else deleteRescanLoop 3 (markAndDelete rows₀ (extractIds rows₀))).length⟩

/- ### The lock detector that `sync()` never calls (claim C3) -/

/-- The locked-status labels of `Unit4Browser._is_week_submitted`. -/
def LOCKED_STATUS_LABELS : List String := ["Ready", "Transferred", "Gesendet"]

/-- `Unit4Browser._is_week_submitted`: some locked-status label is visible
as exact text. -/
def is_week_submitted (visibleTexts : List String) : Bool :=
  LOCKED_STATUS_LABELS.any fun t => visibleTexts.contains t

/-- One polling step of `Unit4Browser.wait_for_ready`: refuse when the
week is submitted, else report whether the Add button is visible. -/
def wait_for_ready (visibleTexts : List String) (addButtonVisible : Bool) : Bool :=
  if is_week_submitted visibleTexts then false else addButtonVisible

/-- C3 evaluated at the failing input: with the locked-status label
`"Ready"` visible, `_is_week_submitted` would report the lock and
`wait_for_ready` would refuse, but `sync()` never calls either — the
execute-mode run still enters the mutation phase, deleting the existing
marked row and creating a new entry, with nonzero reported counts,
instead of aborting. -/
theorem locked_guard_not_wired :
    is_week_submitted ["Ready"] = true ∧
    wait_for_ready ["Ready"] true = false ∧
    SyncAction.createEntry 5 ∈
      (syncRun [⟨5, 1, "PROJ-1", "summary", "2026-01-28", 1, "work", "ACC", "Acme",
        some "1234-56789-001"⟩] [⟨some 9, true, true⟩] true true).trace ∧
    SyncAction.clickDelete ∈
      (syncRun [⟨5, 1, "PROJ-1", "summary", "2026-01-28", 1, "work", "ACC", "Acme",
        some "1234-56789-001"⟩] [⟨some 9, true, true⟩] true true).trace ∧
    (syncRun [⟨5, 1, "PROJ-1", "summary", "2026-01-28", 1, "work", "ACC", "Acme",
        some "1234-56789-001"⟩] [⟨some 9, true, true⟩] true true).deleted = 1 ∧
    (syncRun [⟨5, 1, "PROJ-1", "summary", "2026-01-28", 1, "work", "ACC", "Acme",
        some "1234-56789-001"⟩] [⟨some 9, true, true⟩] true true).created = 1 := by
  decide

/- ### Dry-run behaviour (claim C4) -/

/-- C4 counterexample: a dry run does perform the navigation and the
extraction scan (spec steps 5 and the read half of step 6) — the claim
that steps 5–8 are not performed in dry-run mode is false on the code. -/
theorem dry_run_performs_navigation_counterexample :
    SyncAction.connectBrowser ∈
      (syncRun [⟨5, 1, "PROJ-1", "summary", "2026-01-28", 1, "work", "ACC", "Acme",
        some "1234-56789-001"⟩] [⟨some 9, true, true⟩] false false).trace ∧
    SyncAction.setWeekInput ∈
      (syncRun [⟨5, 1, "PROJ-1", "summary", "2026-01-28", 1, "work", "ACC", "Acme",
        some "1234-56789-001"⟩] [⟨some 9, true, true⟩] false false).trace ∧
    SyncAction.scanEntries ∈
      (syncRun [⟨5, 1, "PROJ-1", "summary", "2026-01-28", 1, "work", "ACC", "Acme",
        some "1234-56789-001"⟩] [⟨some 9, true, true⟩] false false).trace := by
  decide

/-- C4 (amended): a dry run performs the fetch/resolve/mapping/summary
steps and also navigates, selects the period and scans existing marked
entries, then prints the intended deletions (the extracted ids) and
creations (the valid worklog ids); but it performs no remote mutation:
the grid is unchanged, the created/deleted counts are zero, and no
marking, deletion, creation or save action occurs. -/
theorem dry_run_reads_but_never_mutates (valid : List TempoWorklog)
    (rows₀ : List GridRow) (locked : Bool) (h : valid ≠ []) :
    (syncRun valid rows₀ locked false).rows = rows₀ ∧
    (syncRun valid rows₀ locked false).created = 0 ∧
    (syncRun valid rows₀ locked false).deleted = 0 ∧
    SyncAction.scanEntries ∈ (syncRun valid rows₀ locked false).trace ∧
    SyncAction.printDryRunPlan (extractIds rows₀) (valid.map TempoWorklog.worklog_id) ∈
      (syncRun valid rows₀ locked false).trace ∧
    (∀ n, SyncAction.markRow n ∉ (syncRun valid rows₀ locked false).trace ∧
      SyncAction.createEntry n ∉ (syncRun valid rows₀ locked false).trace) ∧
    SyncAction.clickDelete ∉ (syncRun valid rows₀ locked false).trace ∧
    SyncAction.saveAfterDelete ∉ (syncRun valid rows₀ locked false).trace ∧
    SyncAction.saveAll ∉ (syncRun valid rows₀ locked false).trace := by
  have hne : valid.isEmpty = false := by
    cases valid with
    | nil => exact absurd rfl h
    | cons v vs => rfl
  have hr : syncRun valid rows₀ locked false =
      ⟨[.fetchWorklogs, .processWorklogs, .printSummary, .connectBrowser, .setWeekInput,
        .waitForReady, .scanEntries,
        .printDryRunPlan (extractIds rows₀) (valid.map TempoWorklog.worklog_id)],
       rows₀, 0, 0⟩ := by
    simp [syncRun, hne]
  rw [hr]
  refine ⟨rfl, rfl, rfl, by simp, by simp, fun n => ⟨by simp, by simp⟩, by simp, by simp, by simp⟩

/-- C4 witness: the amended statement at a concrete dry run. -/
theorem dry_run_reads_but_never_mutates_witness :
    (syncRun [⟨5, 1, "PROJ-1", "summary", "2026-01-28", 1, "work", "ACC", "Acme",
        some "1234-56789-001"⟩] [⟨some 9, true, true⟩] false false).rows = [⟨some 9, true, true⟩] ∧
    (syncRun [⟨5, 1, "PROJ-1", "summary", "2026-01-28", 1, "work", "ACC", "Acme",
        some "1234-56789-001"⟩] [⟨some 9, true, true⟩] false false).created = 0 ∧
    SyncAction.printDryRunPlan [9] [5] ∈
      (syncRun [⟨5, 1, "PROJ-1", "summary", "2026-01-28", 1, "work", "ACC", "Acme",
        some "1234-56789-001"⟩] [⟨some 9, true, true⟩] false false).trace ∧
    SyncAction.clickDelete ∉
      (syncRun [⟨5, 1, "PROJ-1", "summary", "2026-01-28", 1, "work", "ACC", "Acme",
        some "1234-56789-001"⟩] [⟨some 9, true, true⟩] false false).trace := by
  have h := dry_run_reads_but_never_mutates
    [⟨5, 1, "PROJ-1", "summary", "2026-01-28", 1, "work", "ACC", "Acme",
        some "1234-56789-001"⟩] [⟨some 9, true, true⟩] false (by decide)
  refine ⟨h.1, h.2.1, ?_, h.2.2.2.2.2.2.1⟩
  have hp := h.2.2.2.2.1
  have hx : extractIds [(⟨some 9, true, true⟩ : GridRow)] = [9] := by decide
  rw [hx] at hp
  exact hp

/- ### Idempotence of delete-then-recreate (claim C2) -/

/-- C2 counterexample, two scenarios.  First: a grid row whose text
carries marker id 5 but parses neither a ticket key nor a cost-code (row
text `"[WL:5] some note"`, grounded by the first conjunct) is dropped by
the extractor, hence never deleted, while each execute run creates a
fresh row with the same id: after two runs three rows carry marker id 5.
Second: even from an empty grid, a valid worklog whose issue key is the
non-parsing Jira-lookup fallback `"ID:42"` creates a row that the next
run's extractor drops (its Ticketno cell matches no ticket pattern), so
the second run cannot delete it and two rows carry marker id 42.  In
both cases duplicates accumulate instead of converging to exactly one. -/
theorem sync_twice_counterexample :
    toGridRow ⟨"[WL:5] some note", none⟩ = ⟨some 5, false, false⟩ ∧
    countRowsWithId
      ((syncRun [⟨5, 1, "PROJ-1", "summary", "2026-01-28", 1, "work", "ACC", "Acme",
        some "1234-56789-001"⟩]
        ((syncRun [⟨5, 1, "PROJ-1", "summary", "2026-01-28", 1, "work", "ACC", "Acme",
        some "1234-56789-001"⟩] [⟨some 5, false, false⟩] false true).rows) false true).rows) 5 = 3 ∧
    ¬ countRowsWithId
      ((syncRun [⟨5, 1, "PROJ-1", "summary", "2026-01-28", 1, "work", "ACC", "Acme",
        some "1234-56789-001"⟩]
        ((syncRun [⟨5, 1, "PROJ-1", "summary", "2026-01-28", 1, "work", "ACC", "Acme",
        some "1234-56789-001"⟩] [⟨some 5, false, false⟩] false true).rows) false true).rows) 5 = 1 ∧
    createdRowOf
      ⟨42, 7, "ID:42", "?", "2026-01-28", 1, "some note", "", "",
        some "1234-56789-001"⟩ = ⟨some 42, false, true⟩ ∧
    countRowsWithId
      ((syncRun [⟨42, 7, "ID:42", "?", "2026-01-28", 1, "some note", "", "",
        some "1234-56789-001"⟩]
        ((syncRun [⟨42, 7, "ID:42", "?", "2026-01-28", 1, "some note", "", "",
        some "1234-56789-001"⟩] [] false true).rows) false true).rows) 42 = 2 := by
  decide

theorem wellScanned_spec {rows : List GridRow} (h : WellScanned rows = true) :
    ∀ r ∈ rows, ∀ n, r.markerId = some n → r.hasTicket = true ∧ r.hasArbauft = true := by
  intro r hr n hn
  rw [WellScanned, List.all_eq_true] at h
  have hp := h r hr
  rw [hn] at hp
  simpa using hp

theorem extractIdsLoop_eq_filter (rows : List GridRow)
    (hwf : ∀ r ∈ rows, ∀ n, r.markerId = some n → r.hasTicket = true ∧ r.hasArbauft = true)
    (hnd : (markedIds rows).Nodup) :
    ∀ seen, extractIdsLoop rows seen = (markedIds rows).filter fun n => decide (n ∉ seen) := by
  induction rows with
  | nil =>
    intro seen
    simp [extractIdsLoop, markedIds]
  | cons r rs ih =>
    intro seen
    have hwf' : ∀ x ∈ rs, ∀ n, x.markerId = some n → x.hasTicket = true ∧ x.hasArbauft = true :=
      fun x hx => hwf x (List.mem_cons_of_mem _ hx)
    cases hm : r.markerId with
    | none =>
      have hmi : markedIds (r :: rs) = markedIds rs := by
        simp [markedIds, List.filterMap_cons, hm]
      have hnd' : (markedIds rs).Nodup := hmi ▸ hnd
      rw [show extractIdsLoop (r :: rs) seen = extractIdsLoop rs seen by
        simp [extractIdsLoop, hm]]
      rw [hmi, ih hwf' hnd' seen]
    | some n =>
      obtain ⟨ht, ha⟩ := hwf r (List.mem_cons_self r rs) n hm
      have hmi : markedIds (r :: rs) = n :: markedIds rs := by
        simp [markedIds, List.filterMap_cons, hm]
      have hnd' : (markedIds rs).Nodup := by
        rw [hmi] at hnd
        exact (List.nodup_cons.mp hnd).2
      have hnotin : n ∉ markedIds rs := by
        rw [hmi] at hnd
        exact (List.nodup_cons.mp hnd).1
      by_cases hseen : n ∈ seen
      · rw [show extractIdsLoop (r :: rs) seen = extractIdsLoop rs seen by
          simp [extractIdsLoop, hm, hseen]]
        rw [hmi, ih hwf' hnd' seen, List.filter_cons]
        simp [hseen]
      · rw [show extractIdsLoop (r :: rs) seen = n :: extractIdsLoop rs (n :: seen) by
          simp [extractIdsLoop, hm, hseen, ht, ha]]
        rw [hmi, List.filter_cons]
        have hfeq : ((markedIds rs).filter fun m => decide (m ∉ n :: seen)) =
            (markedIds rs).filter fun m => decide (m ∉ seen) := by
          apply List.filter_congr
          intro a haa
          have hne : a ≠ n := fun hc => hnotin (hc ▸ haa)
          simp [List.mem_cons, hne]
        rw [ih hwf' hnd' (n :: seen), hfeq]
        simp [hseen]

theorem extractIds_eq_markedIds (rows : List GridRow)
    (hwf : ∀ r ∈ rows, ∀ n, r.markerId = some n → r.hasTicket = true ∧ r.hasArbauft = true)
    (hnd : (markedIds rows).Nodup) :
    extractIds rows = markedIds rows := by
  rw [extractIds, extractIdsLoop_eq_filter rows hwf hnd []]
  apply List.filter_eq_self.mpr
  intro a _
  simp

theorem markAndDelete_unmarked_head (r : GridRow) (rs : List GridRow)
    (hr : r.markerId = none) :
    ∀ ids, markAndDelete (r :: rs) ids = r :: markAndDelete rs ids := by
  intro ids
  induction ids generalizing rs with
  | nil => rfl
  | cons n ns ih =>
    have hrf : removeFirstRow (r :: rs) n = r :: removeFirstRow rs n := by
      simp [removeFirstRow, hr]
    rw [show markAndDelete (r :: rs) (n :: ns) = markAndDelete (removeFirstRow (r :: rs) n) ns
        from rfl]
    rw [hrf]
    exact ih (removeFirstRow rs n)

theorem markAndDelete_markedIds (rows : List GridRow) (hnd : (markedIds rows).Nodup) :
    markAndDelete rows (markedIds rows) = rows.filter fun r => r.markerId.isNone := by
  induction rows with
  | nil => rfl
  | cons r rs ih =>
    cases hm : r.markerId with
    | none =>
      have hmi : markedIds (r :: rs) = markedIds rs := by
        simp [markedIds, List.filterMap_cons, hm]
      have hnd' : (markedIds rs).Nodup := hmi ▸ hnd
      rw [hmi, markAndDelete_unmarked_head r rs hm, ih hnd']
      simp [List.filter_cons, hm]
    | some n =>
      have hmi : markedIds (r :: rs) = n :: markedIds rs := by
        simp [markedIds, List.filterMap_cons, hm]
      have hnd' : (markedIds rs).Nodup := by
        rw [hmi] at hnd
        exact (List.nodup_cons.mp hnd).2
      rw [hmi]
      rw [show markAndDelete (r :: rs) (n :: markedIds rs) =
          markAndDelete (removeFirstRow (r :: rs) n) (markedIds rs) from rfl]
      rw [show removeFirstRow (r :: rs) n = rs by simp [removeFirstRow, hm]]
      rw [ih hnd']
      simp [List.filter_cons, hm]

theorem markedIds_filter_none (rows : List GridRow) :
    markedIds (rows.filter fun r => r.markerId.isNone) = [] := by
  induction rows with
  | nil => rfl
  | cons r rs ih =>
    cases hm : r.markerId with
    | none => simpa [List.filter_cons, hm, markedIds, List.filterMap_cons] using ih
    | some n => simpa [List.filter_cons, hm] using ih

theorem unmarked_of_markedIds_nil {rows : List GridRow} (h : markedIds rows = []) :
    ∀ r ∈ rows, r.markerId = none := by
  intro r hr
  exact List.filterMap_eq_nil.mp h r hr

theorem extractIds_nil_of_unmarked {rows : List GridRow} (h : markedIds rows = []) :
    extractIds rows = [] := by
  have hwf : ∀ r ∈ rows, ∀ n, r.markerId = some n →
      r.hasTicket = true ∧ r.hasArbauft = true := by
    intro r hr n hn
    have := (List.filterMap_eq_nil.mp h) r hr
    rw [hn] at this
    simp at this
  rw [extractIds_eq_markedIds rows hwf (h ▸ List.nodup_nil), h]

theorem deleteRescanLoop_of_clean (fuel : Nat) (rows : List GridRow)
    (h : extractIds rows = []) : deleteRescanLoop fuel rows = rows := by
  cases fuel with
  | zero => rfl
  | succ f => simp [deleteRescanLoop, h]

theorem filter_none_of_unmarked {rows : List GridRow}
    (h : ∀ r ∈ rows, r.markerId = none) :
    (rows.filter fun r => r.markerId.isNone) = rows := by
  apply List.filter_eq_self.mpr
  intro r hr
  simp [h r hr]

/-- One execute run leaves exactly the unmarked rows plus one created row
per valid worklog. -/
theorem syncRun_execute_rows (valid : List TempoWorklog) (rows₀ : List GridRow)
    (locked : Bool) (h : valid ≠ [])
    (hwf : WellScanned rows₀ = true) (hnd : (markedIds rows₀).Nodup) :
    (syncRun valid rows₀ locked true).rows =
      (rows₀.filter fun r => r.markerId.isNone) ++ valid.map createdRowOf := by
  have hne : valid.isEmpty = false := by
    cases valid with
    | nil => exact absurd rfl h
    | cons v vs => rfl
  have hwf' := wellScanned_spec hwf
  have hext : extractIds rows₀ = markedIds rows₀ := extractIds_eq_markedIds rows₀ hwf' hnd
  by_cases hempty : (extractIds rows₀).isEmpty = true
  · have hmi : markedIds rows₀ = [] := by
      rw [← hext]
      exact List.isEmpty_iff_eq_nil.mp hempty
    have hfe : (rows₀.filter fun r => r.markerId.isNone) = rows₀ :=
      filter_none_of_unmarked (unmarked_of_markedIds_nil hmi)
    simp [syncRun, hne, hempty, hfe]
  · have hdel : markAndDelete rows₀ (extractIds rows₀) =
        rows₀.filter fun r => r.markerId.isNone := by
      rw [hext]
      exact markAndDelete_markedIds rows₀ hnd
    have hclean : extractIds (rows₀.filter fun r => r.markerId.isNone) = [] :=
      extractIds_nil_of_unmarked (markedIds_filter_none rows₀)
    have hrescan : deleteRescanLoop 3 (markAndDelete rows₀ (extractIds rows₀)) =
        rows₀.filter fun r => r.markerId.isNone := by
      rw [hdel]
      exact deleteRescanLoop_of_clean 3 _ hclean
    simp [syncRun, hne, hempty, hrescan]

theorem markedIds_append (a b : List GridRow) :
    markedIds (a ++ b) = markedIds a ++ markedIds b := by
  simp [markedIds]

theorem markedIds_createdRows (valid : List TempoWorklog) :
    markedIds (valid.map createdRowOf) = valid.map TempoWorklog.worklog_id := by
  induction valid with
  | nil => rfl
  | cons wl rest ih =>
    show ((wl :: rest).map createdRowOf).filterMap GridRow.markerId =
      (wl :: rest).map TempoWorklog.worklog_id
    rw [List.map_cons, List.filterMap_cons, createdRowOf_markerId]
    show wl.worklog_id :: markedIds (rest.map createdRowOf) =
      (wl :: rest).map TempoWorklog.worklog_id
    rw [ih, List.map_cons]

theorem countRowsWithId_append (a b : List GridRow) (n : Nat) :
    countRowsWithId (a ++ b) n = countRowsWithId a n + countRowsWithId b n := by
  induction a with
  | nil => simp [countRowsWithId]
  | cons r rs ih => simp [countRowsWithId, ih]; omega

theorem countRowsWithId_unmarked {rows : List GridRow}
    (h : ∀ r ∈ rows, r.markerId = none) (n : Nat) : countRowsWithId rows n = 0 := by
  induction rows with
  | nil => rfl
  | cons r rs ih =>
    have hr : r.markerId = none := h r (List.mem_cons_self r rs)
    rw [countRowsWithId, hr]
    simp only [if_neg (by simp : ¬ (none : Option Nat) = some n)]
    have := ih fun x hx => h x (List.mem_cons_of_mem _ hx)
    omega

theorem countRowsWithId_createdRows_not_mem {valid : List TempoWorklog} {n : Nat}
    (h : n ∉ valid.map TempoWorklog.worklog_id) :
    countRowsWithId (valid.map createdRowOf) n = 0 := by
  induction valid with
  | nil => rfl
  | cons wl rest ih =>
    have hv : ¬ wl.worklog_id = n := by
      intro hc
      exact h (by rw [List.map_cons, hc]; exact List.mem_cons_self n _)
    show (if (createdRowOf wl).markerId = some n then 1 else 0) +
      countRowsWithId (rest.map createdRowOf) n = 0
    rw [createdRowOf_markerId, if_neg (by simpa using hv)]
    have hrest := ih fun hc => h (by rw [List.map_cons]; exact List.mem_cons_of_mem _ hc)
    omega

theorem countRowsWithId_createdRows (valid : List TempoWorklog)
    (hnd : (valid.map TempoWorklog.worklog_id).Nodup) (n : Nat) :
    countRowsWithId (valid.map createdRowOf) n =
      if n ∈ valid.map TempoWorklog.worklog_id then 1 else 0 := by
  induction valid with
  | nil => simp [countRowsWithId]
  | cons wl rest ih =>
    have hnd2 : (rest.map TempoWorklog.worklog_id).Nodup := by
      rw [List.map_cons] at hnd
      exact (List.nodup_cons.mp hnd).2
    have hnotin : wl.worklog_id ∉ rest.map TempoWorklog.worklog_id := by
      rw [List.map_cons] at hnd
      exact (List.nodup_cons.mp hnd).1
    show (if (createdRowOf wl).markerId = some n then 1 else 0) +
      countRowsWithId (rest.map createdRowOf) n =
      if n ∈ (wl :: rest).map TempoWorklog.worklog_id then 1 else 0
    rw [createdRowOf_markerId, List.map_cons]
    by_cases hv : wl.worklog_id = n
    · subst hv
      rw [if_pos rfl, countRowsWithId_createdRows_not_mem hnotin,
        if_pos (List.mem_cons_self _ _)]
    · rw [if_neg (by simpa using hv), ih hnd2]
      by_cases hm : n ∈ rest.map TempoWorklog.worklog_id
      · rw [if_pos hm, if_pos (List.mem_cons_of_mem _ hm)]
      · have hnc : n ∉ wl.worklog_id :: rest.map TempoWorklog.worklog_id := by
          intro hc
          rcases List.mem_cons.mp hc with hc | hc
          · exact hv hc.symm
          · exact hm hc
        rw [if_neg hm, if_neg hnc]

/-- C2 (amended): restricted to initial grids in which every marked row
parses (ticket key and cost-code present) and no two rows share a marker
id, and to a nonempty set of valid worklogs with distinct ids each of
whose created row text re-parses (its Ticketno cell — the worklog's issue
key — matches the ticket pattern and its ArbAuft cell the cost-code
pattern), running the driver twice in execute mode converges: the final
grid holds exactly one row per valid worklog id and none for any other
id, and re-extraction after the second run returns exactly the valid
worklog ids. -/
theorem sync_twice_converges (valid : List TempoWorklog) (rows₀ : List GridRow)
    (locked : Bool) (hwf : WellScanned rows₀ = true)
    (hnd : (markedIds rows₀).Nodup)
    (hv : (valid.map TempoWorklog.worklog_id).Nodup) (hne : valid ≠ [])
    (hparse : ∀ wl ∈ valid, (TICKET_KEY_search (createdRowText wl)).isSome = true ∧
      (ARBAUFT_search (createdRowText wl)).isSome = true) :
    (∀ n, countRowsWithId
        ((syncRun valid (syncRun valid rows₀ locked true).rows locked true).rows) n =
      if n ∈ valid.map TempoWorklog.worklog_id then 1 else 0) ∧
    extractIds
        ((syncRun valid (syncRun valid rows₀ locked true).rows locked true).rows) =
      valid.map TempoWorklog.worklog_id := by
  have h1 : (syncRun valid rows₀ locked true).rows =
      (rows₀.filter fun r => r.markerId.isNone) ++ valid.map createdRowOf :=
    syncRun_execute_rows valid rows₀ locked hne hwf hnd
  set F := rows₀.filter fun r => r.markerId.isNone with hF
  have hFun : ∀ r ∈ F, r.markerId = none :=
    unmarked_of_markedIds_nil (markedIds_filter_none rows₀)
  have hmi1 : markedIds (F ++ valid.map createdRowOf) =
      valid.map TempoWorklog.worklog_id := by
    rw [markedIds_append, markedIds_filter_none, markedIds_createdRows]
    simp
  have hwf1 : WellScanned (F ++ valid.map createdRowOf) = true := by
    rw [WellScanned, List.all_eq_true]
    intro r hr
    rcases List.mem_append.mp hr with hr | hr
    · simp [hFun r hr]
    · obtain ⟨wl, hwl, rfl⟩ := List.mem_map.mp hr
      have hp := hparse wl hwl
      have ht := createdRowOf_hasTicket wl
      have ha := createdRowOf_hasArbauft wl
      simp [ht, ha, hp.1, hp.2]
  have hnd1 : (markedIds (F ++ valid.map createdRowOf)).Nodup := by
    rw [hmi1]
    exact hv
  have h2 : (syncRun valid (F ++ valid.map createdRowOf) locked true).rows =
      ((F ++ valid.map createdRowOf).filter fun r => r.markerId.isNone) ++
        valid.map createdRowOf :=
    syncRun_execute_rows valid _ locked hne hwf1 hnd1
  have hfa : ((F ++ valid.map createdRowOf).filter fun r => r.markerId.isNone) = F := by
    rw [List.filter_append]
    rw [filter_none_of_unmarked hFun]
    have hcreated : ((valid.map createdRowOf).filter fun r => r.markerId.isNone) = [] := by
      apply List.filter_eq_nil.mpr
      intro r hr
      obtain ⟨wl, _, rfl⟩ := List.mem_map.mp hr
      simp [createdRowOf_markerId wl]
    rw [hcreated, List.append_nil]
  rw [h1, h2, hfa]
  constructor
  · intro n
    rw [countRowsWithId_append, countRowsWithId_unmarked hFun,
      countRowsWithId_createdRows valid hv n]
    omega
  · rw [extractIds_eq_markedIds _ (wellScanned_spec hwf1) hnd1, hmi1]

/-- C2 witness: the amended statement at a concrete well-formed grid and
a concrete re-parsing worklog. -/
theorem sync_twice_converges_witness :
    countRowsWithId
      ((syncRun [⟨5, 1, "PROJ-1", "summary", "2026-01-28", 1, "work", "ACC", "Acme",
      some "1234-56789-001"⟩]
        (syncRun [⟨5, 1, "PROJ-1", "summary", "2026-01-28", 1, "work", "ACC", "Acme",
      some "1234-56789-001"⟩] [⟨some 9, true, true⟩] false true).rows false true).rows)
      5 = 1 ∧
    extractIds
      ((syncRun [⟨5, 1, "PROJ-1", "summary", "2026-01-28", 1, "work", "ACC", "Acme",
      some "1234-56789-001"⟩]
        (syncRun [⟨5, 1, "PROJ-1", "summary", "2026-01-28", 1, "work", "ACC", "Acme",
      some "1234-56789-001"⟩] [⟨some 9, true, true⟩] false true).rows false true).rows)
      = [5] := by
  have h := sync_twice_converges
    [⟨5, 1, "PROJ-1", "summary", "2026-01-28", 1, "work", "ACC", "Acme",
      some "1234-56789-001"⟩]
    [⟨some 9, true, true⟩] false (by decide) (by decide) (by decide) (by decide)
    (by decide)
  refine ⟨?_, ?_⟩
  · have h5 := h.1 5
    simpa using h5
  · have h6 := h.2
    simpa using h6

end J2U4
